import Mathlib

/-!
Verification of the juju `cmd` agent runtime against its specification.

The Go sources are embedded shallowly:

* `Err` models the closed set of `error` values the agent code
  distinguishes (`nil` is `Option.none`); `isUpgraded`, `importance`,
  `moreImportant`, `isFatal` are direct translations of the helpers in
  `cmd/jujud` (a Go `switch` evaluates `default` last, after every listed
  `case`, which is reflected in `importance`).
* `runTasks` models the task supervisor: the nondeterministic scheduling
  of completions on the `done` channel and of the `stop` channel is made
  explicit as a list of `WaitEvent`s consumed by the waiting loop.
* `machineAgentRun` models the `MachineAgent.Run` retry loop, driven by a
  schedule of `Epoch` outcomes; `openState`, `openAPIState`, `runOnceAgent`,
  `openStatePw` and `agentDone` model the corresponding functions.
* `Main` models `cmd.Main` together with the chunks it writes to stderr.
-/

namespace Jujud

/-- The closed set of Go `error` values distinguished by the agent code.
`generic s` stands for any other error with message `s`;
`upgradeReady n` stands for a `*UpgradeReadyError` (the payload `n`
distinguishes distinct values). -/
inductive Err where
  | generic (s : String)
  | upgradeReady (n : Nat)
  | errDead
  | errTerminateAgent
  | errUnauthorized
  | errSilent
  | notFound
  deriving DecidableEq, Repr

/-- The message carried by an error, as used by `fmt` verbs. -/
def errorString : Err → String
  | .generic s => s
  | .upgradeReady _ => "must restart: an agent upgrade is available"
  | .errDead => "worker: entity is dead"
  | .errTerminateAgent => "agent should be terminated"
  | .errUnauthorized => "unauthorized access"
  | .errSilent => "cmd: error out silently"
  | .notFound => "not found"

/-- `isUpgraded` from `cmd/jujud`: a type assertion to `*UpgradeReadyError`
(false on a nil error). -/
def isUpgraded : Option Err → Bool
  | some (.upgradeReady _) => true
  | _ => false

/-- `errors.IsNotFoundError` / `state.IsNotFound` on a non-nil error. -/
def isNotFound : Err → Bool
  | .notFound => true
  | _ => false

/-- `importance` from `cmd/jujud`: the rank of an exit cause.  The Go
`switch` runs its `default` branch only when no `case` matches, so the
`default: return 1` in the middle of the source does not shadow the later
cases. -/
def importance (err : Option Err) : Nat :=
  if err = none then 0
  else if isUpgraded err then 2
  else if err = some .errTerminateAgent then 3
  else 1

/-- `moreImportant` from `cmd/jujud`: whether to act on `err0` in
preference to `err1`. -/
def moreImportant (err0 err1 : Option Err) : Bool :=
  importance err0 > importance err1

/-- `isFatal` from `cmd/jujud`. -/
def isFatal (err : Option Err) : Bool :=
  err = some .errTerminateAgent || isUpgraded err || err = some .errDead

/-! ## The task supervisor (`runTasks`) -/

/-- A supervised task, abstracted to the error its `Wait()` reports on the
`done` channel and the error its `Stop()` returns during shutdown. -/
structure Task where
  waitErr : Option Err
  stopErr : Option Err
  deriving DecidableEq, Repr

/-- One scheduling event observed by the waiting loop of `runTasks`:
either the completion of task `i` arrives on the `done` channel, or the
`stop` channel yields a value. -/
inductive WaitEvent where
  | done (i : Nat)
  | stop
  deriving DecidableEq, Repr

/-- `errInfo` from `runTasks`: the candidate outcome, `index = -1` and a
nil error before any completion is chosen. -/
structure ErrInfo where
  index : Int
  err : Option Err
  deriving DecidableEq, Repr

/-- The waiting loop of `runTasks` (`for _ = range tasks { select ... }`):
it iterates at most `fuel = len(tasks)` times, consuming one event per
iteration; a completion with a non-nil error becomes the candidate and
breaks the loop; a value on `stop` breaks the loop with the candidate
unchanged; a completion with a nil error is not recorded. -/
def waitLoop (tasks : List Task) : List WaitEvent → Nat → ErrInfo
  | _, 0 => ⟨-1, none⟩
  | [], _ + 1 => ⟨-1, none⟩
  | .stop :: _, _ + 1 => ⟨-1, none⟩
  | .done i :: rest, fuel + 1 =>
    match (tasks.getD i ⟨none, none⟩).waitErr with
    | some e => ⟨i, some e⟩
    | none => waitLoop tasks rest fuel

/-- The waiting phase of `runTasks` under the scheduling `events`. -/
def waitPhase (tasks : List Task) (events : List WaitEvent) : ErrInfo :=
  waitLoop tasks events tasks.length

/-- One iteration of the stopping loop of `runTasks`:
`if err := t.Stop(); isUpgraded(err) || err != nil && chosen.err == nil`
replace the candidate by `(i, err)`. -/
def stopStep (chosen : ErrInfo) (it : Nat × Task) : ErrInfo :=
  if isUpgraded it.2.stopErr || (it.2.stopErr ≠ none && chosen.err = none) then
    ⟨(it.1 : Int), it.2.stopErr⟩
  else chosen

/-- The stopping loop of `runTasks`: `Stop()` every task in order,
replacing the candidate as `stopStep` dictates. -/
def stopPhase (tasks : List Task) (chosen : ErrInfo) : ErrInfo :=
  (tasks.enum).foldl stopStep chosen

/-- The list of task indices on which the stopping loop calls `Stop()`:
the loop `for i, t := range tasks { t.Stop() ... }` visits every task. -/
def stopCalls (tasks : List Task) : List Nat :=
  (tasks.enum).foldl (fun acc it => acc ++ [it.1]) []

/-- `runTasks` from `cmd/jujud`: wait for a completion with an error (or a
stop request, or all completions), `Stop()` every task — replacing the
candidate per `stopStep` — and return the candidate's error.  The final
loop of the source only logs discarded errors and does not affect the
result. -/
def runTasks (events : List WaitEvent) (tasks : List Task) : Option Err :=
  (stopPhase tasks (waitPhase tasks events)).err

/-! ## The agent run loop (`MachineAgent.Run` / `RunLoop`) -/

/-- `Life` from the state package. -/
inductive Life where
  | alive
  | dying
  | dead
  deriving DecidableEq, Repr

/-- The outcome of one agent epoch as observed by the run loop:
the error returned by `runOnce`, the error `ChangeAgentTools` would
return if invoked, and whether the tomb is dying when the retry sleep is
reached. -/
structure Epoch where
  onceErr : Option Err
  changeToolsErr : Option Err
  dyingDuringSleep : Bool
  deriving DecidableEq, Repr

/-- A side effect the run loop performs. -/
inductive AgentAction where
  | changeTools (n : Nat)
  deriving DecidableEq, Repr

/-- `MachineAgent.Run` (and the equivalent `RunLoop`) driven by a finite
schedule of epoch outcomes.  The first component is `some r` when the
loop returns the Go error `r` within the schedule and `none` when the
schedule is exhausted with the loop still running; the second component
lists the side effects performed.  Per iteration: an `*UpgradeReadyError`
outcome triggers `ChangeAgentTools` and, on success, is itself returned;
`worker.ErrDead` returns nil; otherwise the loop sleeps — if the tomb is
dying the sleep is interrupted, the tomb is killed with the epoch's error
and that error is returned, else the loop re-enters. -/
def machineAgentRun : List Epoch → Option (Option Err) × List AgentAction
  | [] => (none, [])
  | ep :: rest =>
    match ep.onceErr with
    | some (.upgradeReady n) =>
      match ep.changeToolsErr with
      | none => (some (some (.upgradeReady n)), [.changeTools n])
      | some e2 =>
        if e2 = .errDead then (some none, [.changeTools n])
        else if ep.dyingDuringSleep then (some (some e2), [.changeTools n])
        else
          let r := machineAgentRun rest
          (r.1, .changeTools n :: r.2)
    | e =>
      if e = some .errDead then (some none, [])
      else if ep.dyingDuringSleep then (some e, [])
      else machineAgentRun rest

/-- `agentDone` from `cmd/jujud`: `worker.ErrTerminateAgent` becomes nil;
an `*UpgradeReadyError` triggers `ChangeAgentTools`, whose failure
replaces the error and whose success leaves the upgrade error to be
returned for upstart to restart the agent. -/
def agentDone (err : Option Err) (changeToolsErr : Option Err) : Option Err :=
  let err1 := if err = some .errTerminateAgent then none else err
  match err1 with
  | some (.upgradeReady n) =>
    match changeToolsErr with
    | some e1 => some e1
    | none => some (.upgradeReady n)
  | _ => err1

/-! ## Opening the state connection -/

/-- The collaborators `openState(c *agent.Conf, a Agent)` consults:
the outcome of `c.OpenState()` (nil on success) and the outcome of
`a.Entity(st)` (the entity's life, or an error). -/
structure OpenStateEnv where
  openResult : Option Err
  entityResult : Except Err Life
  deriving Repr

/-- `openState(c, a)` from `cmd/jujud/agent.go`: open the state; fetch the
entity; a not-found error, or a live entity observed `Dead`, becomes
`worker.ErrTerminateAgent`; any error closes the connection and is
returned, else the entity is returned. -/
def openState (env : OpenStateEnv) : Except Err Life :=
  match env.openResult with
  | some e => .error e
  | none =>
    match env.entityResult with
    | .error e =>
      if isNotFound e then .error .errTerminateAgent else .error e
    | .ok life =>
      if life = .dead then .error .errTerminateAgent else .ok life

/-- The collaborators `openAPIState` consults: the outcome of
`c.OpenAPI(...)` — an error, or a connection together with the
`newPassword` string (empty when no fresh password is pending) — the
outcome of `a.APIEntity(st)`, and the outcome of `c1.Write()`. -/
structure APIWorld where
  openResult : Option Err
  newPassword : String
  entityResult : Except Err Life
  writeResult : Option Err
  deriving Repr

/-- `openAPIState` from `cmd/jujud/agent.go`.  The first component is the
returned entity (its life) or error; the second records whether
`st.Close()` was called on the connection.  A not-found code or a `Dead`
entity becomes `worker.ErrTerminateAgent` and closes the connection; with
no pending password the connection is returned directly; otherwise the
updated configuration is written before the connection is returned — but
the error branch of that write returns without closing `st`. -/
def openAPIState (w : APIWorld) : Except Err Life × Bool :=
  match w.openResult with
  | some e => (.error e, false)
  | none =>
    match w.entityResult with
    | .error e =>
      if isNotFound e then (.error Err.errTerminateAgent, true)
      else (.error e, true)
    | .ok life =>
      if life = .dead then (.error Err.errTerminateAgent, true)
      else if w.newPassword = "" then (.ok life, false)
      else
        match w.writeResult with
        | some e => (.error e, false)
        | none => (.ok life, false)

/-- `MachineAgent.runOnce` up to the point where the task set runs:
open the state, fetch the machine — not-found or `Dead` is
`worker.ErrDead` — set the changed password if one is pending, then
return the task runner's outcome. -/
def runOnceAgent (openErr : Option Err) (machineResult : Except Err Life)
    (passwordChanged : String) (setPasswordErr : Option Err)
    (tasksResult : Option Err) : Option Err :=
  match openErr with
  | some e => some e
  | none =>
    match machineResult with
    | .error e => if isNotFound e then some Err.errDead else some e
    | .ok life =>
      if life = .dead then some Err.errDead
      else if passwordChanged ≠ "" then
        match setPasswordErr with
        | some e => some e
        | none => tasksResult
      else tasksResult

/-- The outcome of reading the password file in `openState(entityName,
conf)`: its contents, a does-not-exist condition, or another read error. -/
inductive ReadResult where
  | ok (data : String)
  | notExist
  | err (e : Err)
  deriving DecidableEq, Repr

/-- The collaborators of `openState(entityName, conf)`: the password-file
read, the outcome of `state.Open` for each candidate password, the
configured initial password, the generated random password and the
outcome of writing it to the password file. -/
structure OpenStateWorld where
  readPwfile : ReadResult
  openWith : String → Option Err
  initialPassword : String
  randomPassword : Except Err String
  writeResult : Option Err

/-- The fallback path of `openState(entityName, conf)`: connect with the
initial password, generate a random password, save it to the password
file — closing the connection and failing if either step fails — and
return the connection with the new password.  The first component is the
password the returned connection was opened with, paired with the
returned `password` result; the second records whether `st.Close()` was
called. -/
def openStatePwFallback (w : OpenStateWorld) : Except Err (String × String) × Bool :=
  match w.openWith w.initialPassword with
  | some e => (.error e, false)
  | none =>
    match w.randomPassword with
    | .error e => (.error e, true)
    | .ok pw =>
      match w.writeResult with
      | some e => (.error (.generic ("cannot save password: " ++ errorString e)), true)
      | none => (.ok (w.initialPassword, pw), false)

/-- `openState(entityName, conf)` from `cmd/jujud`: read the saved
password file; a read error other than not-exist fails; with saved data,
try `state.Open` with it — success returns that connection with an empty
`password`, `ErrUnauthorized` falls back to the initial password (a crash
after saving but before changing the password), any other error fails;
without saved data, go straight to the fallback path. -/
def openStatePw (w : OpenStateWorld) : Except Err (String × String) × Bool :=
  match w.readPwfile with
  | .err e => (.error e, false)
  | .ok data =>
    match w.openWith data with
    | none => (.ok (data, ""), false)
    | some e =>
      if e ≠ .errUnauthorized then (.error e, false)
      else openStatePwFallback w
  | .notExist => openStatePwFallback w

/-! ## `cmd.Main` -/

/-- The outcome of `ParseArgs` (gnuflag parsing): the remaining positional
arguments, the distinguished `gnuflag.ErrHelp`, or another parse error. -/
inductive ParseResult where
  | ok (rest : List String)
  | errHelp
  | err (msg : String)
  deriving DecidableEq, Repr

/-- A `cmd.Command`, abstracted to the behaviour `Main` consumes: how its
flag set parses an argument list, what `Init` returns on the remaining
arguments, what `Run` returns, and the help text `Info().Help(f)`
renders. -/
structure Command where
  parse : List String → ParseResult
  infoInit : List String → Option Err
  run : Option Err
  helpText : String

/-- `cmd.Main`: the exit code paired with the chunks written to
`ctx.Stderr`.  `ErrHelp` prints the help text and exits 0; any other
parse error, or an `Init` error, prints `error: ...` and exits 2; a `Run`
error exits 1, printing `error: ...` unless it is `ErrSilent`; success
exits 0. -/
def Main (c : Command) (args : List String) : Nat × List String :=
  match c.parse args with
  | .errHelp => (0, [c.helpText])
  | .err m => (2, ["error: " ++ m ++ "\n"])
  | .ok rest =>
    match c.infoInit rest with
    | some e => (2, ["error: " ++ errorString e ++ "\n"])
    | none =>
      match c.run with
      | some e =>
        if e = .errSilent then (1, [])
        else (1, ["error: " ++ errorString e ++ "\n"])
      | none => (0, [])

/-! ## The reconciliation controller (provisioner)

The `Provisioner` implementation itself is not under `src/` — only its
test suite is — so the controller is modelled from the specification. -/

/-- Modelled from the spec: a `MachineRecord` of the desired-state store —
identifier, life-cycle state, and the assigned instance identifier or
unset.  (The provisioner sources are not under `src/`.) -/
structure MachineRecord where
  mid : Nat
  life : Life
  instanceId : Option Nat
  deriving DecidableEq, Repr

/-- Modelled from the spec: an `InstanceRecord` of the provider —
instance identifier plus the machine identifier it was tagged with at
`StartInstance` time.  (The provisioner sources are not under `src/`.) -/
structure InstanceRecord where
  instId : Nat
  machineTag : Nat
  deriving DecidableEq, Repr

/-- Modelled from the spec: the durable facts a reconciliation pass
fetches — the `MachineRecord` set and the provider's instance listing —
plus the provider's next fresh instance identifier.  (The provisioner
sources are not under `src/`.) -/
structure ProvState where
  machines : List MachineRecord
  instances : List InstanceRecord
  nextInstId : Nat
  deriving DecidableEq, Repr

/-- Modelled from the spec: an instance is known — and must not be
stopped — precisely when some `MachineRecord` that is not `Dead` carries
its identifier; the record's instance field is the controller's only
persistent memory of the association.  (The provisioner sources are not
under `src/`.) -/
def isLiveRecordFor (machines : List MachineRecord) (i : InstanceRecord) : Bool :=
  machines.any fun m => decide (m.instanceId = some i.instId ∧ m.life ≠ Life.dead)

/-- Modelled from the spec: step 4 of a pass — for each `toStart` record,
ask the provider to start an instance tagged with the machine identifier
and write the resulting instance identifier back onto the record.  Returns
the updated state and the `StartInstance` calls `(machineId, instId)`
issued, in order.  (The provisioner sources are not under `src/`.) -/
def startStep (acc : ProvState × List (Nat × Nat)) (m : MachineRecord) :
    ProvState × List (Nat × Nat) :=
  let st := acc.1
  let iid := st.nextInstId
  ({ machines := st.machines.map fun m2 =>
       if m2.mid = m.mid then { m2 with instanceId := some iid } else m2,
     instances := st.instances ++ [⟨iid, m.mid⟩],
     nextInstId := iid + 1 },
   acc.2 ++ [(m.mid, iid)])

/-- Modelled from the spec: run `startStep` over the whole `toStart`
partition.  (The provisioner sources are not under `src/`.) -/
def startMachines (toStart : List MachineRecord) (s : ProvState) :
    ProvState × List (Nat × Nat) :=
  toStart.foldl startStep (s, [])

/-- Modelled from the spec: one reconciliation pass.  An invalid
configuration suspends all start/stop actions and leaves the state
untouched.  Otherwise: `toStart` is the Alive records with no instance
set, `toStop` is the instances with no live matching record; each
`toStart` machine is started and the identifier written back; each
`toStop` instance is stopped; records are never cleared by the
controller.  Returns the new state, the `StartInstance` calls and the
stopped instance identifiers.  (The provisioner sources are not under
`src/`.) -/
def reconcilePass (configValid : Bool) (s : ProvState) :
    ProvState × List (Nat × Nat) × List Nat :=
  if configValid then
    let toStart := s.machines.filter fun m =>
      decide (m.life = Life.alive ∧ m.instanceId = none)
    let toStop := s.instances.filter fun i => !(isLiveRecordFor s.machines i)
    let s1 := (startMachines toStart s).1
    let started := (startMachines toStart s).2
    let stoppedIds := toStop.map (·.instId)
    ({ s1 with instances := s1.instances.filter fun i => !(stoppedIds.contains i.instId) },
     started, stoppedIds)
  else (s, [], [])

/-- Modelled from the spec: the controller's watch loop — one pass per
notification, each notification carrying whether the fetched
configuration validates; the pass actions accumulate and the loop never
exits on an invalid configuration.  (The provisioner sources are not
under `src/`.) -/
def runPasses : List Bool → ProvState → ProvState × List (Nat × Nat) × List Nat
  | [], s => (s, [], [])
  | cv :: rest, s =>
    let r1 := reconcilePass cv s
    let r2 := runPasses rest r1.1
    (r2.1, r1.2.1 ++ r2.2.1, r1.2.2 ++ r2.2.2)

/-! ## Helper lemmas about the stopping and waiting loops -/

theorem stopStep_keeps_upgraded (chosen : ErrInfo) (p : Nat × Task)
    (h : isUpgraded chosen.err = true) :
    isUpgraded (stopStep chosen p).err = true := by
  unfold stopStep
  split
  next hc =>
    simp only [Bool.or_eq_true, Bool.and_eq_true, decide_eq_true_eq] at hc
    rcases hc with hu | ⟨_, hnone⟩
    · simpa using hu
    · rw [hnone] at h
      simp [isUpgraded] at h
  next => exact h

theorem stopFold_keeps_upgraded (l : List (Nat × Task)) :
    ∀ chosen : ErrInfo, isUpgraded chosen.err = true →
      isUpgraded (l.foldl stopStep chosen).err = true := by
  induction l with
  | nil => intro chosen h; exact h
  | cons p rest ih =>
    intro chosen h
    rw [List.foldl_cons]
    exact ih _ (stopStep_keeps_upgraded chosen p h)

theorem stopFold_upgraded_of_mem (l : List Task) :
    ∀ (n : Nat) (chosen : ErrInfo),
      (∃ t ∈ l, isUpgraded t.stopErr = true) →
      isUpgraded ((l.enumFrom n).foldl stopStep chosen).err = true := by
  induction l with
  | nil => intro n chosen h; simp at h
  | cons t rest ih =>
    intro n chosen h
    rw [List.enumFrom_cons, List.foldl_cons]
    rcases h with ⟨t', ht', hu⟩
    rcases List.mem_cons.mp ht' with rfl | hmem
    · apply stopFold_keeps_upgraded
      show isUpgraded (stopStep chosen (n, t')).err = true
      unfold stopStep
      split
      next => simpa using hu
      next hc =>
        simp only [Bool.or_eq_true, Bool.and_eq_true, decide_eq_true_eq, not_or] at hc
        exact absurd hu (by simpa using hc.1)
    · exact ih (n + 1) _ ⟨t', hmem, hu⟩

theorem stopStep_no_replace (chosen : ErrInfo) (p : Nat × Task)
    (h1 : isUpgraded p.2.stopErr = false) (h2 : chosen.err ≠ none) :
    stopStep chosen p = chosen := by
  simp [stopStep, h1, h2]

theorem stopFold_no_upgraded (l : List (Nat × Task)) :
    ∀ chosen : ErrInfo, (∀ p ∈ l, isUpgraded p.2.stopErr = false) → chosen.err ≠ none →
      l.foldl stopStep chosen = chosen := by
  induction l with
  | nil => intro chosen _ _; rfl
  | cons p rest ih =>
    intro chosen h1 h2
    rw [List.foldl_cons, stopStep_no_replace chosen p (h1 p (List.mem_cons_self p rest)) h2]
    exact ih chosen (fun q hq => h1 q (List.mem_cons_of_mem _ hq)) h2

theorem snd_mem_of_mem_enumFrom (l : List Task) :
    ∀ (n : Nat) (p : Nat × Task), p ∈ l.enumFrom n → p.2 ∈ l := by
  induction l with
  | nil => intro n p h; simp at h
  | cons t rest ih =>
    intro n p h
    rw [List.enumFrom_cons] at h
    rcases List.mem_cons.mp h with rfl | hmem
    · exact List.mem_cons_self _ _
    · exact List.mem_cons_of_mem _ (ih (n + 1) p hmem)

theorem waitLoop_first_error (tasks : List Task) (i : Nat) (e : Err)
    (hi : (tasks.getD i ⟨none, none⟩).waitErr = some e) :
    ∀ (pre post : List WaitEvent) (fuel : Nat),
      (∀ ev ∈ pre, ∃ j, ev = WaitEvent.done j ∧ (tasks.getD j ⟨none, none⟩).waitErr = none) →
      pre.length < fuel →
      waitLoop tasks (pre ++ WaitEvent.done i :: post) fuel = ⟨(i : Int), some e⟩ := by
  intro pre
  induction pre with
  | nil =>
    intro post fuel _ hfuel
    cases fuel with
    | zero => omega
    | succ f =>
      simp only [List.nil_append, waitLoop]
      rw [hi]
  | cons ev rest ih =>
    intro post fuel hpre hfuel
    cases fuel with
    | zero => omega
    | succ f =>
      obtain ⟨j, hev, hj⟩ := hpre ev (List.mem_cons_self _ _)
      subst hev
      have hstep : waitLoop tasks ((WaitEvent.done j :: rest) ++ WaitEvent.done i :: post) (f + 1)
          = waitLoop tasks (rest ++ WaitEvent.done i :: post) f := by
        simp only [List.cons_append, waitLoop]
        rw [hj]
        rfl
      rw [hstep]
      refine ih post f (fun ev h => hpre ev (List.mem_cons_of_mem _ h)) ?_
      simp only [List.length_cons] at hfuel
      omega

theorem foldl_append_fst (l : List (Nat × Task)) :
    ∀ acc : List Nat, l.foldl (fun acc it => acc ++ [it.1]) acc = acc ++ l.map Prod.fst := by
  induction l with
  | nil => intro acc; simp
  | cons p rest ih =>
    intro acc
    simp [ih]

theorem stopCalls_eq_range (tasks : List Task) :
    stopCalls tasks = List.range tasks.length := by
  unfold stopCalls
  rw [foldl_append_fst]
  rw [show tasks.enum = tasks.enumFrom 0 from rfl, List.enumFrom_map_fst,
    ← List.range_eq_range']
  simp

/-! ## C1: rank arbitration among exit causes -/

/-- **C1** counterexample: in one supervision epoch task 0 completes first
with a `GenericError` (rank 1) and task 1 yields `worker.ErrTerminateAgent`
(rank 3) when stopped, yet `runTasks` returns the rank-1 error: the
returned outcome does not have rank at least 3, so a `TerminateRequested`
surfaced while stopping does not replace an already-chosen
`GenericError`. -/
theorem runTasks_terminate_rank_counterexample :
    importance (runTasks [WaitEvent.done 0]
      [⟨some (Err.generic "boom"), some (Err.generic "boom")⟩,
       ⟨some Err.errTerminateAgent, some Err.errTerminateAgent⟩]) = 1 ∧
    importance (some Err.errTerminateAgent) = 3 ∧
    runTasks [WaitEvent.done 0]
      [⟨some (Err.generic "boom"), some (Err.generic "boom")⟩,
       ⟨some Err.errTerminateAgent, some Err.errTerminateAgent⟩]
      = some (Err.generic "boom") := by
  decide

/-- **C1** (amended): only an `*UpgradeReadyError` is privileged while
stopping — if any task's `Stop()` yields one, `runTasks` returns an
`*UpgradeReadyError` (rank 2) regardless of arrival order and of any
already-chosen candidate; with no upgrade error among the `Stop()`
results, the candidate chosen in the waiting phase is returned unchanged,
so a `TerminateRequested` surfaced while stopping does not displace an
already-chosen `GenericError`. -/
theorem runTasks_upgrade_precedence (events : List WaitEvent) (tasks : List Task) :
    ((∃ t ∈ tasks, isUpgraded t.stopErr = true) →
      isUpgraded (runTasks events tasks) = true) ∧
    ((∀ t ∈ tasks, isUpgraded t.stopErr = false) →
      (waitPhase tasks events).err ≠ none →
      runTasks events tasks = (waitPhase tasks events).err) := by
  constructor
  · intro h
    unfold runTasks stopPhase
    exact stopFold_upgraded_of_mem tasks 0 _ h
  · intro h1 h2
    unfold runTasks stopPhase
    have hfold := stopFold_no_upgraded tasks.enum (waitPhase tasks events)
      (fun p hp => h1 p.2 (snd_mem_of_mem_enumFrom tasks 0 p hp)) h2
    rw [hfold]

/-- Witness for `runTasks_upgrade_precedence` at concrete inputs. -/
theorem runTasks_upgrade_precedence_witness :
    isUpgraded (runTasks [WaitEvent.done 0]
      [⟨some (Err.generic "boom"), some (Err.generic "boom")⟩,
       ⟨some (Err.upgradeReady 7), some (Err.upgradeReady 7)⟩]) = true ∧
    runTasks [WaitEvent.done 0] [⟨some (Err.generic "boom"), none⟩] =
      (waitPhase [⟨some (Err.generic "boom"), none⟩] [WaitEvent.done 0]).err := by
  refine ⟨(runTasks_upgrade_precedence _ _).1 ?_, (runTasks_upgrade_precedence _ _).2 ?_ ?_⟩
  · exact ⟨⟨some (Err.upgradeReady 7), some (Err.upgradeReady 7)⟩, by decide, rfl⟩
  · decide
  · decide

/-! ## C2: the waiting phase and the candidate outcome -/

/-- **C2** counterexample: the first-observed completion is task 0,
which finished successfully (nil error), yet `runTasks` does not record
it as the candidate and return its (nil) error — it keeps waiting and
returns task 1's error. -/
theorem runTasks_nil_completion_counterexample :
    (([⟨none, none⟩, ⟨some (Err.generic "g"), none⟩] : List Task).getD 0
      ⟨none, none⟩).waitErr = none ∧
    runTasks [WaitEvent.done 0, WaitEvent.done 1]
      [⟨none, none⟩, ⟨some (Err.generic "g"), none⟩] = some (Err.generic "g") := by
  decide

/-- **C2** (amended): `runTasks` blocks until some task completes *with an
error* (nil-error completions are skipped and waiting continues), the
cancellation signal fires, or all tasks have completed; the first error
completion becomes the candidate, `Stop()` is issued to every task, and
the candidate's underlying error is returned (here with no upgrade error
among the `Stop()` results, so no replacement occurs). -/
theorem runTasks_first_error_returned (tasks : List Task) (pre post : List WaitEvent)
    (i : Nat) (e : Err)
    (hpre : ∀ ev ∈ pre, ∃ j, ev = WaitEvent.done j ∧
      (tasks.getD j ⟨none, none⟩).waitErr = none)
    (hlen : pre.length < tasks.length)
    (hi : (tasks.getD i ⟨none, none⟩).waitErr = some e)
    (hstops : ∀ t ∈ tasks, t.stopErr = none) :
    runTasks (pre ++ WaitEvent.done i :: post) tasks = some e ∧
    stopCalls tasks = List.range tasks.length := by
  have hwait : waitPhase tasks (pre ++ WaitEvent.done i :: post) = ⟨(i : Int), some e⟩ :=
    waitLoop_first_error tasks i e hi pre post tasks.length hpre hlen
  refine ⟨?_, stopCalls_eq_range tasks⟩
  unfold runTasks stopPhase
  rw [hwait]
  have hfold := stopFold_no_upgraded tasks.enum ⟨(i : Int), some e⟩
    (fun p hp => by
      have hstop := hstops p.2 (snd_mem_of_mem_enumFrom tasks 0 p hp)
      simp [hstop, isUpgraded])
    (by simp)
  rw [hfold]

/-- Witness for `runTasks_first_error_returned` at concrete inputs. -/
theorem runTasks_first_error_returned_witness :
    runTasks [WaitEvent.done 0, WaitEvent.done 1]
      [⟨none, none⟩, ⟨some (Err.generic "g"), none⟩] = some (Err.generic "g") ∧
    stopCalls [⟨none, none⟩, ⟨some (Err.generic "g"), none⟩] = List.range 2 :=
  runTasks_first_error_returned
    [⟨none, none⟩, ⟨some (Err.generic "g"), none⟩]
    [WaitEvent.done 0] [] 1 (Err.generic "g")
    (by
      intro ev hev
      rw [List.mem_singleton] at hev
      subst hev
      exact ⟨0, rfl, by decide⟩)
    (by decide) (by decide) (by decide)

/-! ## The run loop: C6, C7, C9 -/

theorem machineAgentRun_generic_step (ep : Epoch) (rest : List Epoch) (e : Err)
    (h1 : ep.onceErr = some e) (h2 : isUpgraded (some e) = false) (h3 : e ≠ Err.errDead) :
    machineAgentRun (ep :: rest) =
      if ep.dyingDuringSleep then (some (some e), []) else machineAgentRun rest := by
  cases e with
  | generic s => simp [machineAgentRun, h1]
  | upgradeReady n => simp [isUpgraded] at h2
  | errDead => exact absurd rfl h3
  | errTerminateAgent => simp [machineAgentRun, h1]
  | errUnauthorized => simp [machineAgentRun, h1]
  | errSilent => simp [machineAgentRun, h1]
  | notFound => simp [machineAgentRun, h1]

/-- **C9**: a transient or generic epoch error (non-upgrade,
non-terminate) never makes the run loop return: absent an external stop
request the loop re-enters the next epoch unchanged, and a whole schedule
of such epochs leaves the loop still running; the retry sleep is
interruptible — if the tomb is dying when the sleep is reached, the loop
winds down with that epoch's error instead of retrying. -/
theorem runloop_retries_on_generic_errors (ep : Epoch) (rest : List Epoch) (e : Err)
    (h1 : ep.onceErr = some e) (h2 : isUpgraded (some e) = false) (h3 : e ≠ Err.errDead) :
    (ep.dyingDuringSleep = false → machineAgentRun (ep :: rest) = machineAgentRun rest) ∧
    (ep.dyingDuringSleep = true → machineAgentRun (ep :: rest) = (some (some e), [])) ∧
    (∀ epochs : List Epoch,
      (∀ q ∈ epochs, ∃ e2, q.onceErr = some e2 ∧ isUpgraded (some e2) = false ∧
        e2 ≠ Err.errDead ∧ q.dyingDuringSleep = false) →
      (machineAgentRun epochs).1 = none) := by
  refine ⟨?_, ?_, ?_⟩
  · intro hd
    rw [machineAgentRun_generic_step ep rest e h1 h2 h3, hd]
    simp
  · intro hd
    rw [machineAgentRun_generic_step ep rest e h1 h2 h3, hd]
    simp
  · intro epochs hall
    induction epochs with
    | nil => rfl
    | cons q qs ih =>
      obtain ⟨e2, hq1, hq2, hq3, hq4⟩ := hall q (List.mem_cons_self _ _)
      rw [machineAgentRun_generic_step q qs e2 hq1 hq2 hq3, hq4]
      simpa using ih (fun p hp => hall p (List.mem_cons_of_mem _ hp))

/-- Witness for `runloop_retries_on_generic_errors` at concrete inputs. -/
theorem runloop_retries_on_generic_errors_witness :
    machineAgentRun [⟨some (Err.generic "x"), none, false⟩] = machineAgentRun [] ∧
    machineAgentRun [⟨some (Err.generic "x"), none, true⟩]
      = (some (some (Err.generic "x")), []) ∧
    (machineAgentRun [⟨some (Err.generic "x"), none, false⟩]).1 = none := by
  refine ⟨?_, ?_, ?_⟩
  · exact (runloop_retries_on_generic_errors ⟨some (Err.generic "x"), none, false⟩ []
      (Err.generic "x") rfl (by decide) (by decide)).1 rfl
  · exact (runloop_retries_on_generic_errors ⟨some (Err.generic "x"), none, true⟩ []
      (Err.generic "x") rfl (by decide) (by decide)).2.1 rfl
  · refine (runloop_retries_on_generic_errors ⟨some (Err.generic "x"), none, false⟩ []
      (Err.generic "x") rfl (by decide) (by decide)).2.2
      [⟨some (Err.generic "x"), none, false⟩] ?_
    intro q hq
    rw [List.mem_singleton] at hq
    subst hq
    exact ⟨Err.generic "x", rfl, by decide, by decide, rfl⟩

/-- **C6**: when opening state finds the agent's entity missing or Dead,
`openState` yields `worker.ErrTerminateAgent` and `MachineAgent.runOnce`
yields `worker.ErrDead`; an epoch whose outcome is `worker.ErrDead` makes
the run loop return a nil error immediately (exit 0 equivalent), entering
no further epochs regardless of the rest of the schedule; `agentDone`
likewise maps `worker.ErrTerminateAgent` to a nil error. -/
theorem dead_entity_terminates_cleanly
    (env : OpenStateEnv) (mr : Except Err Life) (pw : String) (spe tr : Option Err)
    (ep : Epoch) (rest : List Epoch)
    (henv : env.openResult = none)
    (hent : env.entityResult = .error .notFound ∨ env.entityResult = .ok .dead)
    (hmr : mr = .error .notFound ∨ mr = .ok .dead)
    (hep : ep.onceErr = some .errDead) :
    openState env = .error Err.errTerminateAgent ∧
    runOnceAgent none mr pw spe tr = some Err.errDead ∧
    machineAgentRun (ep :: rest) = (some none, []) ∧
    agentDone (some Err.errTerminateAgent) none = none := by
  refine ⟨?_, ?_, ?_, rfl⟩
  · rcases hent with h | h <;> simp [openState, henv, h, isNotFound]
  · rcases hmr with h | h <;> simp [runOnceAgent, h, isNotFound]
  · simp [machineAgentRun, hep]

/-- Witness for `dead_entity_terminates_cleanly` at concrete inputs. -/
theorem dead_entity_terminates_cleanly_witness :
    openState ⟨none, .error .notFound⟩ = .error Err.errTerminateAgent ∧
    runOnceAgent none (.ok .dead) "" none none = some Err.errDead ∧
    machineAgentRun [⟨some Err.errDead, none, false⟩,
      ⟨some (Err.generic "x"), none, false⟩] = (some none, []) ∧
    agentDone (some Err.errTerminateAgent) none = none :=
  dead_entity_terminates_cleanly ⟨none, .error .notFound⟩ (.ok .dead) "" none none
    ⟨some Err.errDead, none, false⟩ [⟨some (Err.generic "x"), none, false⟩]
    rfl (Or.inl rfl) (Or.inr rfl) rfl

/-- **C7**: an epoch ending with an `*UpgradeReadyError` triggers the
`ChangeAgentTools` swap and, when the swap succeeds, the run loop returns
that distinguished upgrade error itself — the "please restart me"
outcome for the surrounding process manager — instead of continuing to
another epoch; `agentDone` behaves the same way for a finished agent. -/
theorem upgrade_swaps_tools_and_restarts (ep : Epoch) (rest : List Epoch) (n : Nat)
    (h1 : ep.onceErr = some (Err.upgradeReady n)) (h2 : ep.changeToolsErr = none) :
    machineAgentRun (ep :: rest) =
      (some (some (Err.upgradeReady n)), [AgentAction.changeTools n]) ∧
    agentDone (some (Err.upgradeReady n)) none = some (Err.upgradeReady n) := by
  constructor
  · simp [machineAgentRun, h1, h2]
  · simp [agentDone]

/-- Witness for `upgrade_swaps_tools_and_restarts` at concrete inputs. -/
theorem upgrade_swaps_tools_and_restarts_witness :
    machineAgentRun [⟨some (Err.upgradeReady 3), none, false⟩,
      ⟨some (Err.generic "x"), none, false⟩]
      = (some (some (Err.upgradeReady 3)), [AgentAction.changeTools 3]) ∧
    agentDone (some (Err.upgradeReady 3)) none = some (Err.upgradeReady 3) :=
  upgrade_swaps_tools_and_restarts ⟨some (Err.upgradeReady 3), none, false⟩
    [⟨some (Err.generic "x"), none, false⟩] 3 rfl rfl

/-! ## Credentials: C4, C5 -/

/-- **C4**: with a secret saved in the password file, `openState` tries it
first — success returns that connection with no new password; if the
backend rejects the saved secret as unauthorized (the crash-after-save
case, where a newer secret exists on disk but the backend still holds the
old one), `openState` falls back to the initial password and succeeds, so
the old secret still being the valid one is not an error. -/
theorem openState_tries_saved_then_initial (w : OpenStateWorld) (s pw : String)
    (hread : w.readPwfile = .ok s)
    (hrand : w.randomPassword = .ok pw)
    (hwrite : w.writeResult = none) :
    (w.openWith s = none → openStatePw w = (.ok (s, ""), false)) ∧
    (w.openWith s = some Err.errUnauthorized → w.openWith w.initialPassword = none →
      openStatePw w = (.ok (w.initialPassword, pw), false)) := by
  constructor
  · intro h
    simp [openStatePw, hread, h]
  · intro h1 h2
    simp [openStatePw, openStatePwFallback, hread, h1, h2, hrand, hwrite]

/-- Witness for `openState_tries_saved_then_initial` at concrete inputs. -/
theorem openState_tries_saved_then_initial_witness :
    openStatePw { readPwfile := .ok "saved", openWith := (fun _ => none),
                  initialPassword := "init", randomPassword := .ok "fresh",
                  writeResult := none }
      = (.ok ("saved", ""), false) ∧
    openStatePw { readPwfile := .ok "newsecret",
                  openWith := (fun p =>
                    if p = "init" then none else some Err.errUnauthorized),
                  initialPassword := "init", randomPassword := .ok "fresh",
                  writeResult := none }
      = (.ok ("init", "fresh"), false) := by
  constructor
  · exact (openState_tries_saved_then_initial _ "saved" "fresh" rfl rfl rfl).1 rfl
  · exact (openState_tries_saved_then_initial _ "newsecret" "fresh" rfl rfl rfl).2 rfl rfl

/-- **C5** counterexample: `openAPIState` with a pending fresh password
and a failing configuration write returns the error with no connection,
but without calling `Close` on the connection — it is abandoned, not
closed. -/
theorem openAPIState_write_failure_counterexample :
    openAPIState ⟨none, "np", .ok .alive, some (Err.generic "disk full")⟩
      = (.error (Err.generic "disk full"), false) := rfl

/-- **C5** (amended): when a freshly generated secret is pending, it is
persisted before the connection is returned for use — a successful return
implies the write succeeded — and a failed write fails the whole
operation with no connection returned; `openState` additionally closes
the connection on a failed password-file write, while `openAPIState`
returns without calling `Close` on it. -/
theorem secret_persisted_before_use (w : APIWorld) (v : OpenStateWorld)
    (e : Err) (l : Life) (pw : String)
    (hnp : w.newPassword ≠ "") :
    ((openAPIState w).1 = .ok l → w.writeResult = none) ∧
    (w.openResult = none → w.entityResult = .ok l → l ≠ .dead →
      w.writeResult = some e → openAPIState w = (.error e, false)) ∧
    (v.readPwfile = .notExist → v.openWith v.initialPassword = none →
      v.randomPassword = .ok pw → v.writeResult = some e →
      openStatePw v =
        (.error (.generic ("cannot save password: " ++ errorString e)), true)) ∧
    (∀ x, (openStatePwFallback v).1 = .ok x → v.writeResult = none) := by
  refine ⟨?_, ?_, ?_, ?_⟩
  · intro h
    obtain ⟨o, np, ent, wr⟩ := w
    simp only at hnp
    cases o with
    | some e2 => simp [openAPIState] at h
    | none =>
      cases ent with
      | error e2 =>
        simp only [openAPIState] at h
        split at h <;> simp at h
      | ok life =>
        cases life with
        | alive =>
          simp only [openAPIState, hnp] at h ⊢
          cases wr with
          | some e2 => simp at h
          | none => rfl
        | dying =>
          simp only [openAPIState, hnp] at h ⊢
          cases wr with
          | some e2 => simp at h
          | none => rfl
        | dead => simp [openAPIState] at h
  · intro h1 h2 h3 h4
    simp [openAPIState, h1, h2, h3, hnp, h4]
  · intro h1 h2 h3 h4
    simp [openStatePw, openStatePwFallback, h1, h2, h3, h4]
  · intro x h
    cases how : v.openWith v.initialPassword with
    | some e2 => simp [openStatePwFallback, how] at h
    | none =>
      cases hr : v.randomPassword with
      | error e2 => simp [openStatePwFallback, how, hr] at h
      | ok pw2 =>
        cases hw : v.writeResult with
        | some e2 => simp [openStatePwFallback, how, hr, hw] at h
        | none => rfl

/-- Witness for `secret_persisted_before_use` at concrete inputs. -/
theorem secret_persisted_before_use_witness :
    ((openAPIState ⟨none, "np", .ok .alive, none⟩).1 = .ok .alive →
      (⟨none, "np", .ok .alive, none⟩ : APIWorld).writeResult = none) ∧
    openAPIState ⟨none, "np", .ok .alive, some (Err.generic "efail")⟩
      = (.error (Err.generic "efail"), false) ∧
    openStatePw { readPwfile := .notExist, openWith := (fun _ => none),
                  initialPassword := "init", randomPassword := .ok "fresh",
                  writeResult := some (Err.generic "efail") }
      = (.error (.generic ("cannot save password: " ++ errorString (Err.generic "efail"))),
         true) := by
  refine ⟨?_, ?_, ?_⟩
  · exact (secret_persisted_before_use ⟨none, "np", .ok .alive, none⟩
      { readPwfile := .notExist, openWith := (fun _ => none), initialPassword := "init",
        randomPassword := .ok "fresh", writeResult := none }
      (Err.generic "efail") Life.alive "fresh" (by decide)).1
  · exact (secret_persisted_before_use ⟨none, "np", .ok .alive, some (Err.generic "efail")⟩
      { readPwfile := .notExist, openWith := (fun _ => none), initialPassword := "init",
        randomPassword := .ok "fresh", writeResult := none }
      (Err.generic "efail") Life.alive "fresh" (by decide)).2.1 rfl rfl (by decide) rfl
  · exact (secret_persisted_before_use ⟨none, "np", .ok .alive, none⟩
      { readPwfile := .notExist, openWith := (fun _ => none), initialPassword := "init",
        randomPassword := .ok "fresh", writeResult := some (Err.generic "efail") }
      (Err.generic "efail") Life.alive "fresh" (by decide)).2.2.1 rfl rfl rfl rfl

/-! ## `cmd.Main`: C10 -/

/-- **C10**: `cmd.Main` returns 2 on a flag-parse or `Init` failure,
writing the error to stderr; 0 on a help request, writing the help text
to stderr; 1 when `Run` returns an error and 0 when it succeeds; and when
`Run` returns `ErrSilent`, 1 with no error output at all. -/
theorem Main_exit_codes (c : Command) (args : List String) :
    (∀ m, c.parse args = .err m → Main c args = (2, ["error: " ++ m ++ "\n"])) ∧
    (c.parse args = .errHelp → Main c args = (0, [c.helpText])) ∧
    (∀ rest e, c.parse args = .ok rest → c.infoInit rest = some e →
      Main c args = (2, ["error: " ++ errorString e ++ "\n"])) ∧
    (∀ rest e, c.parse args = .ok rest → c.infoInit rest = none → c.run = some e →
      (Main c args).1 = 1) ∧
    (∀ rest, c.parse args = .ok rest → c.infoInit rest = none → c.run = none →
      Main c args = (0, [])) ∧
    (∀ rest, c.parse args = .ok rest → c.infoInit rest = none →
      c.run = some Err.errSilent → Main c args = (1, [])) := by
  refine ⟨?_, ?_, ?_, ?_, ?_, ?_⟩
  · intro m h
    simp [Main, h]
  · intro h
    simp [Main, h]
  · intro rest e h1 h2
    simp [Main, h1, h2]
  · intro rest e h1 h2 h3
    by_cases he : e = Err.errSilent <;> simp [Main, h1, h2, h3, he]
  · intro rest h1 h2 h3
    simp [Main, h1, h2, h3]
  · intro rest h1 h2 h3
    simp [Main, h1, h2, h3]

/-- Witness for `Main_exit_codes` at concrete commands. -/
theorem Main_exit_codes_witness :
    Main ⟨fun _ => .err "bad", fun _ => none, none, "h"⟩ []
      = (2, ["error: " ++ "bad" ++ "\n"]) ∧
    Main ⟨fun _ => .errHelp, fun _ => none, none, "helptext"⟩ [] = (0, ["helptext"]) ∧
    Main ⟨fun _ => .ok [], fun _ => some (Err.generic "bad arg"), none, "h"⟩ []
      = (2, ["error: " ++ errorString (Err.generic "bad arg") ++ "\n"]) ∧
    (Main ⟨fun _ => .ok [], fun _ => none, some (Err.generic "run fail"), "h"⟩ []).1 = 1 ∧
    Main ⟨fun _ => .ok [], fun _ => none, none, "h"⟩ [] = (0, []) ∧
    Main ⟨fun _ => .ok [], fun _ => none, some Err.errSilent, "h"⟩ [] = (1, []) := by
  refine ⟨?_, ?_, ?_, ?_, ?_, ?_⟩
  · exact (Main_exit_codes _ _).1 "bad" rfl
  · exact (Main_exit_codes _ _).2.1 rfl
  · exact (Main_exit_codes _ _).2.2.1 [] (Err.generic "bad arg") rfl rfl
  · exact (Main_exit_codes _ _).2.2.2.1 [] (Err.generic "run fail") rfl rfl rfl
  · exact (Main_exit_codes _ _).2.2.2.2.1 [] rfl rfl rfl
  · exact (Main_exit_codes _ _).2.2.2.2.2 [] rfl rfl rfl

/-! ## The reconciliation controller: C3, C8 -/

theorem startFold_calls (l : List MachineRecord) :
    ∀ (s : ProvState) (acc : List (Nat × Nat)),
      ((l.foldl startStep (s, acc)).2).map Prod.fst
        = acc.map Prod.fst ++ l.map (fun m => m.mid) := by
  induction l with
  | nil => intro s acc; simp
  | cons m rest ih =>
    intro s acc
    rw [List.foldl_cons]
    have h := ih (startStep (s, acc) m).1 (startStep (s, acc) m).2
    rw [show ((startStep (s, acc) m).1, (startStep (s, acc) m).2)
          = startStep (s, acc) m from rfl] at h
    rw [h]
    show (acc ++ [(m.mid, s.nextInstId)]).map Prod.fst ++ _ = _
    simp

theorem reconcilePass_valid_started (s : ProvState) :
    (reconcilePass true s).2.1 =
      (startMachines (s.machines.filter fun m =>
        decide (m.life = Life.alive ∧ m.instanceId = none)) s).2 := rfl

theorem reconcilePass_valid_stopped (s : ProvState) :
    (reconcilePass true s).2.2 =
      (s.instances.filter fun i => !(isLiveRecordFor s.machines i)).map (·.instId) := rfl

/-- **C3**: after a crash between `StartInstance` and the write-back — a
machine `m` still Alive and unprovisioned, and a live instance `x` that
no record references — the next valid pass of a fresh controller stops
`x` (never adopts it) and issues exactly one `StartInstance` for `m`;
and a pass over a state in which every Alive machine already has its
instance recorded issues no `StartInstance` at all, so a restart with no
intervening state change never provisions the same machine twice. -/
theorem provisioner_no_double_provision :
    (∀ (s : ProvState) (m : MachineRecord) (x : InstanceRecord),
      m ∈ s.machines → m.life = Life.alive → m.instanceId = none →
      x ∈ s.instances →
      (∀ m2 ∈ s.machines, m2.instanceId ≠ some x.instId) →
      (s.machines.map (fun m2 => m2.mid)).Nodup →
      x.instId ∈ (reconcilePass true s).2.2 ∧
      (((reconcilePass true s).2.1).map Prod.fst).count m.mid = 1) ∧
    (∀ s : ProvState,
      (∀ m ∈ s.machines, m.life = Life.alive → m.instanceId ≠ none) →
      (reconcilePass true s).2.1 = []) := by
  constructor
  · intro s m x hm hlife hinst hx hunref hnodup
    constructor
    · rw [reconcilePass_valid_stopped]
      have hnotlive : isLiveRecordFor s.machines x = false := by
        cases hb : isLiveRecordFor s.machines x with
        | false => rfl
        | true =>
          exfalso
          simp only [isLiveRecordFor, List.any_eq_true, decide_eq_true_eq] at hb
          obtain ⟨m2, hm2, hinst2, _⟩ := hb
          exact hunref m2 hm2 hinst2
      exact List.mem_map_of_mem _ (List.mem_filter.mpr ⟨hx, by simp [hnotlive]⟩)
    · rw [reconcilePass_valid_started]
      unfold startMachines
      rw [startFold_calls]
      have hsub : ((s.machines.filter fun m2 =>
            decide (m2.life = Life.alive ∧ m2.instanceId = none)).map
              (fun m2 => m2.mid)).Sublist (s.machines.map (fun m2 => m2.mid)) :=
        (List.filter_sublist _).map _
      have hmem : m.mid ∈ (s.machines.filter fun m2 =>
          decide (m2.life = Life.alive ∧ m2.instanceId = none)).map (fun m2 => m2.mid) :=
        List.mem_map_of_mem _ (List.mem_filter.mpr ⟨hm, by rw [hlife, hinst]; decide⟩)
      have hone := List.count_eq_one_of_mem (hsub.nodup hnodup) hmem
      simpa using hone
  · intro s hall
    rw [reconcilePass_valid_started]
    have hnil : s.machines.filter (fun m =>
        decide (m.life = Life.alive ∧ m.instanceId = none)) = [] := by
      rw [List.filter_eq_nil_iff]
      intro m hm
      simp only [decide_eq_true_eq]
      rintro ⟨h1, h2⟩
      exact hall m hm h1 h2
    rw [hnil]
    rfl

/-- Witness for `provisioner_no_double_provision` at concrete states. -/
theorem provisioner_no_double_provision_witness :
    9 ∈ (reconcilePass true ⟨[⟨5, .alive, none⟩], [⟨9, 5⟩], 10⟩).2.2 ∧
    (((reconcilePass true ⟨[⟨5, .alive, none⟩], [⟨9, 5⟩], 10⟩).2.1).map
      Prod.fst).count 5 = 1 ∧
    (reconcilePass true ⟨[⟨5, .alive, some 10⟩], [⟨10, 5⟩], 11⟩).2.1 = [] := by
  refine ⟨?_, ?_, ?_⟩
  · exact (provisioner_no_double_provision.1 ⟨[⟨5, .alive, none⟩], [⟨9, 5⟩], 10⟩
      ⟨5, .alive, none⟩ ⟨9, 5⟩ (by decide) rfl rfl (by decide) (by decide) (by decide)).1
  · exact (provisioner_no_double_provision.1 ⟨[⟨5, .alive, none⟩], [⟨9, 5⟩], 10⟩
      ⟨5, .alive, none⟩ ⟨9, 5⟩ (by decide) rfl rfl (by decide) (by decide) (by decide)).2
  · exact provisioner_no_double_provision.2 ⟨[⟨5, .alive, some 10⟩], [⟨10, 5⟩], 11⟩
      (by decide)

/-- **C8**: a pass whose fetched configuration fails validation issues
zero provider start/stop calls and leaves the state untouched, and the
watch loop does not exit — the remaining notifications are processed
exactly as if the invalid-config pass had not happened, so the deferred
diff is applied by the next pass with a valid configuration. -/
theorem invalid_config_suspends_actions (s : ProvState) (rest : List Bool) :
    reconcilePass false s = (s, [], []) ∧
    runPasses (false :: rest) s = runPasses rest s :=
  ⟨rfl, rfl⟩

end Jujud
